import Mathlib

/-!
Shallow embedding of the OTA firmware updater loop
(`src/updater.rs`, `FirmwareUpdater::check` / `FirmwareUpdater::run`).

Byte sequences are `List Nat`; the bounded `heapless::Vec<u8, 32>` buffers
are modelled by `fromSlice32`, which fails (like `Vec::from_slice`) when the
source is longer than 32 bytes.  The `u32` field `next_offset` is a `Nat`
reduced modulo `2^32` at each addition.  The device, service and delay
capabilities are external collaborators: the device and delay are modelled
as response functions, the service as the list of responses it gives to the
successive requests of one session.  The interpreter additionally records
the outbound status reports and the device/delay operations it performs, so
that observable behaviour can be specified.
-/

namespace Updater

/-- `u32` modulus: `next_offset` is a 32-bit counter in the source. -/
def u32lim : Nat := 4294967296

/-- `heapless::Vec::<u8, 32>::from_slice`: copies the bytes, fails when the
source exceeds the 32-byte capacity (never truncates). -/
def fromSlice32 (s : List Nat) : Option (List Nat) :=
  if s.length ≤ 32 then some s else none

/-- The device status snapshot returned by `FirmwareDevice::status`
(current version, resume offset, optional in-progress version). -/
structure InitialStatus where
  current_version : List Nat
  next_offset : Nat
  next_version : Option (List Nat)
deriving Repr, DecidableEq

/-- `UpdaterState` from `src/updater.rs` (lines 25-29). -/
structure UpdaterState where
  current_version : List Nat
  next_offset : Nat
  next_version : Option (List Nat)
deriving Repr, DecidableEq

/-- Modelled from the spec: the outbound status report of
`drogue_ajour_protocol` (an external crate), in its two forms:
*first-contact* (current version + max-chunk size) and *in-progress*
(current version + max-chunk size + next offset + in-progress version).
The trailing field is the opaque correlation token. -/
inductive Status where
  | first (version : List Nat) (mtu : Option Nat) (correlation_id : Option Nat)
  | update (version : List Nat) (mtu : Option Nat) (offset : Nat)
      (next_version : List Nat) (correlation_id : Option Nat)
deriving Repr, DecidableEq

/-- Modelled from the spec: the inbound `Command` of
`drogue_ajour_protocol` (an external crate): write chunk (version, offset,
payload, correlation token), sync (version, optional poll interval,
correlation token), wait (optional poll interval, correlation token),
swap (version, checksum, correlation token). -/
inductive Command where
  | write (version : List Nat) (offset : Nat) (data : List Nat)
      (correlation_id : Nat)
  | sync (version : Option (List Nat)) (poll : Option Nat)
      (correlation_id : Nat)
  | wait (poll : Option Nat) (correlation_id : Nat)
  | swap (version : List Nat) (checksum : List Nat) (correlation_id : Nat)
deriving Repr, DecidableEq

/-- `Error` from `src/updater.rs` (lines 9-15). -/
inductive Error (D S : Type) where
  | Encode
  | Decode
  | Delay
  | Device (e : D)
  | Service (e : S)
deriving Repr, DecidableEq

/-- `DeviceStatus` from `src/updater.rs` (lines 20-23). -/
inductive DeviceStatus where
  | Synced
  | Updated
deriving Repr, DecidableEq

/-- One observable operation performed on the device or delay capability. -/
inductive Event where
  | start (version : List Nat)
  | write (offset : Nat) (data : List Nat)
  | update (version : List Nat) (checksum : List Nat)
  | synced
  | delay_ms (ms : Nat)
deriving Repr, DecidableEq

/-- The device capability (`FirmwareDevice`), modelled by the responses its
operations give during the session. -/
structure Device (D : Type) where
  status : Except D InitialStatus
  start : List Nat → Except D Unit
  write : Nat → List Nat → Except D Unit
  update : List Nat → List Nat → Except D Unit
  synced : Except D Unit
  MTU : Nat

/-- The delay capability (`DelayUs::delay_ms`); its error value is
discarded by the loop (`map_err(|_| Error::Delay)`). -/
structure Delay where
  delay_ms : Nat → Except Unit Unit

/-- `Status::update(...)` vs `Status::first(...)` construction of the
outbound report (lines 73-83): *in-progress* form iff `next_version` is
set, always carrying the device's max-chunk size (`F::MTU`). -/
def buildStatus (mtu : Nat) (s : UpdaterState) : Status :=
  match s.next_version with
  | some next => Status.update s.current_version (some mtu) s.next_offset next none
  | none => Status.first s.current_version (some mtu) none

/-- Result of handling one received command: either continue the loop with
a new state (having performed some operations), or terminate the session
(`return Ok(b)` or an error). -/
inductive StepOut (D S : Type) where
  | next (s : UpdaterState) (evs : List Event)
  | done (evs : List Event) (r : Except (Error D S) Bool)

/-- The `match cmd` body of the loop (lines 92-150), acting on one
successfully decoded command. -/
def handle {D S : Type} (dev : Device D) (dly : Delay) (s : UpdaterState) :
    Command → StepOut D S
  | Command.write version offset data _ =>
    let startEvs : List Event :=
      if offset = 0 then [Event.start version] else []
    let startRes : Except D Unit :=
      if offset = 0 then dev.start version else Except.ok ()
    match startRes with
    | Except.error e => StepOut.done startEvs (Except.error (Error.Device e))
    | Except.ok _ =>
      match dev.write offset data with
      | Except.error e =>
        StepOut.done (startEvs ++ [Event.write offset data])
          (Except.error (Error.Device e))
      | Except.ok _ =>
        let s := { s with next_offset := (s.next_offset + data.length) % u32lim }
        match fromSlice32 version with
        | none =>
          StepOut.done (startEvs ++ [Event.write offset data])
            (Except.error Error.Decode)
        | some v =>
          StepOut.next { s with next_version := some v }
            (startEvs ++ [Event.write offset data])
  | Command.sync _ _ _ =>
    match dev.synced with
    | Except.error e => StepOut.done [Event.synced] (Except.error (Error.Device e))
    | Except.ok _ => StepOut.done [Event.synced] (Except.ok true)
  | Command.wait poll _ =>
    match poll with
    | some p =>
      match dly.delay_ms (p * 1000) with
      | Except.error _ =>
        StepOut.done [Event.delay_ms (p * 1000)] (Except.error Error.Delay)
      | Except.ok _ => StepOut.next s [Event.delay_ms (p * 1000)]
    | none => StepOut.next s []
  | Command.swap version checksum _ =>
    match dev.update version checksum with
    | Except.error e =>
      StepOut.done [Event.update version checksum]
        (Except.error (Error.Device e))
    | Except.ok _ =>
      StepOut.done [Event.update version checksum] (Except.ok false)

/-- Observable outcome of the session loop: the reports sent (one per
completed service request), the device/delay operations performed, the
session state at termination (the state entering the terminating
iteration), and the loop's result — `none` when the modelled service
response list is exhausted (the real loop would still be awaiting the
service). -/
structure LoopResult (D S : Type) where
  reports : List Status
  events : List Event
  state : UpdaterState
  result : Option (Except (Error D S) Bool)

/-- The session loop (lines 72-158): each iteration builds the status
report from the current state, sends it, and acts on the service's
response; a failed service request (`Err(e)` from `request`) is logged and
the loop re-enters with the same state. -/
def checkLoop {D S : Type} (dev : Device D) (dly : Delay) :
    UpdaterState → List (Except S Command) → LoopResult D S
  | s, [] => ⟨[], [], s, none⟩
  | s, resp :: rest =>
    let st := buildStatus dev.MTU s
    match resp with
    | Except.error _ =>
      let r := checkLoop dev dly s rest
      ⟨st :: r.reports, r.events, r.state, r.result⟩
    | Except.ok cmd =>
      match handle dev dly s cmd with
      | StepOut.done evs res => ⟨[st], evs, s, some res⟩
      | StepOut.next s' evs =>
        let r := checkLoop dev dly s' rest
        ⟨st :: r.reports, evs ++ r.events, r.state, r.result⟩

/-- Observable outcome of `check` (the state is absent when the session
aborted before the loop was entered). -/
structure CheckResult (D S : Type) where
  reports : List Status
  events : List Event
  state : Option UpdaterState
  result : Option (Except (Error D S) Bool)

/-- `FirmwareUpdater::check` (lines 49-159): query the device status, copy
the version byte sequences into the bounded session buffers (`Encode` on
overflow), then run the loop. -/
def check {D S : Type} (dev : Device D) (dly : Delay)
    (responses : List (Except S Command)) : CheckResult D S :=
  match dev.status with
  | Except.error e => ⟨[], [], none, some (Except.error (Error.Device e))⟩
  | Except.ok initial =>
    match fromSlice32 initial.current_version with
    | none => ⟨[], [], none, some (Except.error Error.Encode)⟩
    | some cv =>
      match initial.next_version with
      | some nv =>
        match fromSlice32 nv with
        | none => ⟨[], [], none, some (Except.error Error.Encode)⟩
        | some nv' =>
          let r := checkLoop dev dly ⟨cv, initial.next_offset, some nv'⟩ responses
          ⟨r.reports, r.events, some r.state, r.result⟩
      | none =>
        let r := checkLoop dev dly ⟨cv, initial.next_offset, none⟩ responses
        ⟨r.reports, r.events, some r.state, r.result⟩

/-- Observable outcome of `run`. -/
structure RunResult (D S : Type) where
  reports : List Status
  events : List Event
  state : Option UpdaterState
  result : Option (Except (Error D S) DeviceStatus)

/-- `FirmwareUpdater::run` (lines 166-176): `check` mapped to
`DeviceStatus::Synced` / `DeviceStatus::Updated`. -/
def run {D S : Type} (dev : Device D) (dly : Delay)
    (responses : List (Except S Command)) : RunResult D S :=
  let c := check dev dly responses
  ⟨c.reports, c.events, c.state,
    c.result.map (Except.map (fun b => if b then DeviceStatus.Synced else DeviceStatus.Updated))⟩

/-- A device snapshot whose reported versions all fit the 32-byte session
buffers, so that the session setup (lines 54-66) succeeds. -/
def initOk (init : InitialStatus) : Prop :=
  init.current_version.length ≤ 32 ∧
    ∀ nv, init.next_version = some nv → nv.length ≤ 32

/-- The session state built from a well-bounded device snapshot. -/
def mkInit (init : InitialStatus) : UpdaterState :=
  ⟨init.current_version, init.next_offset, init.next_version⟩

/-- A device whose every operation succeeds, used to instantiate theorems
at concrete inputs.  Current version is the byte string "1". -/
def okDevice : Device Unit where
  status := Except.ok ⟨[49], 0, none⟩
  start := fun _ => Except.ok ()
  write := fun _ _ => Except.ok ()
  update := fun _ _ => Except.ok ()
  synced := Except.ok ()
  MTU := 1024

/-- A delay capability that always succeeds. -/
def okDelay : Delay := ⟨fun _ => Except.ok ()⟩

/-- A write command, as the service issues it. -/
structure WriteCmd where
  version : List Nat
  offset : Nat
  data : List Nat
  correlation_id : Nat
deriving Repr, DecidableEq

/-- The `Command` carried by a `WriteCmd`. -/
def WriteCmd.toCommand (w : WriteCmd) : Command :=
  Command.write w.version w.offset w.data w.correlation_id

/-- The device operations one accepted write performs: `start` when the
offset is zero, then the `write` itself. -/
def writeEvs (w : WriteCmd) : List Event :=
  (if w.offset = 0 then [Event.start w.version] else []) ++
    [Event.write w.offset w.data]

/-- Sum of the payload lengths of a sequence of writes. -/
def sumLens (ws : List WriteCmd) : Nat :=
  (ws.map (fun w => w.data.length)).sum

/-- Session state after one accepted write. -/
def stepWrite (s : UpdaterState) (w : WriteCmd) : UpdaterState :=
  ⟨s.current_version, (s.next_offset + w.data.length) % u32lim, some w.version⟩

/-- Session state after a sequence of accepted writes. -/
def afterWrites (s : UpdaterState) : List WriteCmd → UpdaterState
  | [] => s
  | w :: ws => afterWrites (stepWrite s w) ws

/-- The payload length a command advances `next_offset` by (zero for
non-write commands). -/
def payloadLen : Command → Nat
  | Command.write _ _ data _ => data.length
  | _ => 0

/-- Recognizes a `start` invocation in the event trace. -/
def isStart : Event → Bool
  | Event.start _ => true
  | _ => false

/-- The device operations performed by a sequence of accepted writes. -/
def writesEvs : List WriteCmd → List Event
  | [] => []
  | w :: ws => writeEvs w ++ writesEvs ws

/-- A service session consisting of a sequence of write commands followed
by one swap command, every request succeeding. -/
def writeSwapSession (S : Type) (ws : List WriteCmd) (sv sc : List Nat)
    (scid : Nat) : List (Except S Command) :=
  ws.map (fun w => Except.ok w.toCommand) ++ [Except.ok (Command.swap sv sc scid)]

/-- A device reporting resume offset 5 (otherwise like `okDevice`). -/
def dev5 : Device Unit :=
  { okDevice with status := Except.ok ⟨[49], 5, none⟩ }

/-- A device reporting resume offset 7 (otherwise like `okDevice`). -/
def dev7 : Device Unit :=
  { okDevice with status := Except.ok ⟨[49], 7, none⟩ }

/-- A device reporting the maximal 32-bit resume offset (otherwise like
`okDevice`). -/
def devMaxOffset : Device Unit :=
  { okDevice with status := Except.ok ⟨[49], 4294967295, none⟩ }

/-- A delay capability that always fails. -/
def failDelay : Delay := ⟨fun _ => Except.error ()⟩

/-- A 33-byte version identifier, one byte over the 32-byte bound. -/
def longVersion : List Nat := List.replicate 33 49

/-- A device reporting a current version that exceeds the 32-byte bound. -/
def longCurDevice : Device Unit :=
  { okDevice with status := Except.ok ⟨longVersion, 0, none⟩ }

/-- A device reporting an in-progress version that exceeds the 32-byte
bound. -/
def longNextDevice : Device Unit :=
  { okDevice with status := Except.ok ⟨[49], 64, some longVersion⟩ }

theorem check_eq {D S : Type} (dev : Device D) (dly : Delay)
    (responses : List (Except S Command)) (init : InitialStatus)
    (hst : dev.status = Except.ok init) (hok : initOk init) :
    check dev dly responses =
      ⟨(checkLoop dev dly (mkInit init) responses).reports,
       (checkLoop dev dly (mkInit init) responses).events,
       some (checkLoop dev dly (mkInit init) responses).state,
       (checkLoop dev dly (mkInit init) responses).result⟩ := by
  obtain ⟨h1, h2⟩ := hok
  unfold check
  rw [hst]
  cases hnv : init.next_version with
  | none => simp [fromSlice32, h1, hnv, mkInit]
  | some nv => simp [fromSlice32, h1, hnv, h2 nv hnv, mkInit]

theorem handle_next_current {D S : Type} (dev : Device D) (dly : Delay)
    (s : UpdaterState) (cmd : Command) (s' : UpdaterState) (evs : List Event)
    (h : (handle dev dly s cmd : StepOut D S) = StepOut.next s' evs) :
    s'.current_version = s.current_version := by
  cases cmd with
  | write v o d c =>
    by_cases ho : o = 0
    · subst ho
      cases hs : dev.start v with
      | error e => simp [handle, hs] at h
      | ok u =>
        cases hw : dev.write 0 d with
        | error e => simp [handle, hs, hw] at h
        | ok u' =>
          cases hv : fromSlice32 v with
          | none => simp [handle, hs, hw, hv] at h
          | some vv =>
            simp [handle, hs, hw, hv] at h
            rcases h with ⟨rfl, -⟩
            rfl
    · cases hw : dev.write o d with
      | error e => simp [handle, ho, hw] at h
      | ok u' =>
        cases hv : fromSlice32 v with
        | none => simp [handle, ho, hw, hv] at h
        | some vv =>
          simp [handle, ho, hw, hv] at h
          rcases h with ⟨rfl, -⟩
          rfl
  | sync v p c =>
    cases hs : dev.synced with
    | error e => simp [handle, hs] at h
    | ok u => simp [handle, hs] at h
  | wait p c =>
    cases p with
    | none =>
      simp [handle] at h
      rcases h with ⟨rfl, -⟩
      rfl
    | some n =>
      cases hd : dly.delay_ms (n * 1000) with
      | error e => simp [handle, hd] at h
      | ok u =>
        simp [handle, hd] at h
        rcases h with ⟨rfl, -⟩
        rfl
  | swap v ck c =>
    cases hu : dev.update v ck with
    | error e => simp [handle, hu] at h
    | ok u => simp [handle, hu] at h

theorem checkLoop_current {D S : Type} (dev : Device D) (dly : Delay)
    (responses : List (Except S Command)) :
    ∀ s : UpdaterState,
      (checkLoop dev dly s responses).state.current_version
        = s.current_version := by
  induction responses with
  | nil => intro s; rfl
  | cons resp rest ih =>
    intro s
    cases resp with
    | error e => simpa [checkLoop] using ih s
    | ok cmd =>
      cases hh : (handle dev dly s cmd : StepOut D S) with
      | done evs res => simp [checkLoop, hh]
      | next s' evs =>
        simp only [checkLoop, hh]
        exact (ih s').trans (handle_next_current dev dly s cmd s' evs hh)

/-- C2: in a session where the service answers with a sync command, `run`
returns the `Synced` outcome, the device's start, write and update
(activate) operations are never invoked, and the device's synced
confirmation is performed (it is the only device operation) before
terminating.  This covers every session where the service always answers
sync: only the first answer is ever consumed. -/
theorem C2_sync_session {D S : Type} (dev : Device D) (dly : Delay)
    (init : InitialStatus) (v : Option (List Nat)) (p : Option Nat) (c : Nat)
    (rest : List (Except S Command))
    (hst : dev.status = Except.ok init) (hok : initOk init)
    (hsy : dev.synced = Except.ok ()) :
    (run dev dly (Except.ok (Command.sync v p c) :: rest)).result
        = some (Except.ok DeviceStatus.Synced) ∧
    (run dev dly (Except.ok (Command.sync v p c) :: rest)).events
        = [Event.synced] ∧
    (∀ ver, Event.start ver
        ∉ (run dev dly (Except.ok (Command.sync v p c) :: rest)).events) ∧
    (∀ o d, Event.write o d
        ∉ (run dev dly (Except.ok (Command.sync v p c) :: rest)).events) ∧
    (∀ ver ck, Event.update ver ck
        ∉ (run dev dly (Except.ok (Command.sync v p c) :: rest)).events) := by
  simp [run, check_eq dev dly _ init hst hok, checkLoop, handle, hsy, Except.map]

theorem C2_sync_session_witness :
    (run okDevice okDelay
        ([Except.ok (Command.sync none none 0)] : List (Except Unit Command))).result
        = some (Except.ok DeviceStatus.Synced) ∧
    (run okDevice okDelay
        ([Except.ok (Command.sync none none 0)] : List (Except Unit Command))).events
        = [Event.synced] ∧
    (∀ ver, Event.start ver
        ∉ (run okDevice okDelay
            ([Except.ok (Command.sync none none 0)] : List (Except Unit Command))).events) ∧
    (∀ o d, Event.write o d
        ∉ (run okDevice okDelay
            ([Except.ok (Command.sync none none 0)] : List (Except Unit Command))).events) ∧
    (∀ ver ck, Event.update ver ck
        ∉ (run okDevice okDelay
            ([Except.ok (Command.sync none none 0)] : List (Except Unit Command))).events) :=
  C2_sync_session okDevice okDelay ⟨[49], 0, none⟩ none none 0 [] rfl
    ⟨by decide, fun nv h => Option.noConfusion h⟩ rfl

/-- C10: the version and poll-interval fields of a sync command are
ignored: handling a sync command gives the same step for any values of
those fields, and (when the synced confirmation succeeds) the session
terminates with the `Synced`-producing result immediately after the
device's synced confirmation — no delay operation is performed and no
state is consulted beyond building the report. -/
theorem C10_sync_ignores_fields {D S : Type} (dev : Device D) (dly : Delay)
    (s : UpdaterState) (v v' : Option (List Nat)) (p p' : Option Nat)
    (c c' : Nat) (rest : List (Except S Command))
    (hsy : dev.synced = Except.ok ()) :
    ((handle dev dly s (Command.sync v p c) : StepOut D S)
        = handle dev dly s (Command.sync v' p' c')) ∧
    checkLoop dev dly s (Except.ok (Command.sync v p c) :: rest)
        = ⟨[buildStatus dev.MTU s], [Event.synced], s, some (Except.ok true)⟩ := by
  constructor
  · rfl
  · simp [checkLoop, handle, hsy]

theorem C10_sync_ignores_fields_witness :
    ((handle okDevice okDelay ⟨[49], 3, none⟩
        (Command.sync (some [50]) (some 60) 7) : StepOut Unit Unit)
        = handle okDevice okDelay ⟨[49], 3, none⟩ (Command.sync none none 0)) ∧
    checkLoop okDevice okDelay ⟨[49], 3, none⟩
        ([Except.ok (Command.sync (some [50]) (some 60) 7)] : List (Except Unit Command))
        = ⟨[buildStatus okDevice.MTU ⟨[49], 3, none⟩], [Event.synced],
            ⟨[49], 3, none⟩, some (Except.ok true)⟩ :=
  C10_sync_ignores_fields okDevice okDelay ⟨[49], 3, none⟩
    (some [50]) none (some 60) none 7 0 [] rfl

/-- C7: on every loop iteration the outbound report is the in-progress
form (current version, max-chunk size, next offset, in-progress version)
exactly when `next_version` is set, and otherwise the first-contact form
(current version, max-chunk size); both forms carry the device's max-chunk
size, and `current_version` is never changed by the loop: the state at any
point of the session still carries the value captured at session start. -/
theorem C7_report_form {D S : Type} (dev : Device D) (dly : Delay) :
    (∀ (s : UpdaterState) (mtu : Nat),
      (∀ nv, s.next_version = some nv →
        buildStatus mtu s
          = Status.update s.current_version (some mtu) s.next_offset nv none) ∧
      (s.next_version = none →
        buildStatus mtu s = Status.first s.current_version (some mtu) none)) ∧
    (∀ (s : UpdaterState) (responses : List (Except S Command)),
      (checkLoop dev dly s responses).state.current_version
        = s.current_version) := by
  constructor
  · intro s mtu
    constructor
    · intro nv h
      simp [buildStatus, h]
    · intro h
      simp [buildStatus, h]
  · intro s responses
    exact checkLoop_current dev dly responses s

theorem C7_report_form_witness :
    buildStatus 1024 ⟨[49], 7, some [50]⟩
        = Status.update [49] (some 1024) 7 [50] none ∧
    buildStatus 1024 ⟨[49], 0, none⟩ = Status.first [49] (some 1024) none ∧
    (checkLoop okDevice okDelay ⟨[49], 0, none⟩
        ([Except.ok (Command.wait none 0)] : List (Except Unit Command))).state.current_version
        = [49] :=
  ⟨((@C7_report_form Unit Unit okDevice okDelay).1 ⟨[49], 7, some [50]⟩ 1024).1 [50] rfl,
   ((@C7_report_form Unit Unit okDevice okDelay).1 ⟨[49], 0, none⟩ 1024).2 rfl,
   (@C7_report_form Unit Unit okDevice okDelay).2 ⟨[49], 0, none⟩
     [Except.ok (Command.wait none 0)]⟩

theorem handle_no_service {D S : Type} (dev : Device D) (dly : Delay)
    (s : UpdaterState) (cmd : Command) (evs : List Event) (e : S)
    (h : (handle dev dly s cmd : StepOut D S)
        = StepOut.done evs (Except.error (Error.Service e))) : False := by
  cases cmd with
  | write v o d c =>
    by_cases ho : o = 0
    · subst ho
      cases hs : dev.start v with
      | error e' => simp [handle, hs] at h
      | ok u =>
        cases hw : dev.write 0 d with
        | error e' => simp [handle, hs, hw] at h
        | ok u' =>
          cases hv : fromSlice32 v with
          | none => simp [handle, hs, hw, hv] at h
          | some vv => simp [handle, hs, hw, hv] at h
    · cases hw : dev.write o d with
      | error e' => simp [handle, ho, hw] at h
      | ok u' =>
        cases hv : fromSlice32 v with
        | none => simp [handle, ho, hw, hv] at h
        | some vv => simp [handle, ho, hw, hv] at h
  | sync v p c =>
    cases hs : dev.synced with
    | error e' => simp [handle, hs] at h
    | ok u => simp [handle, hs] at h
  | wait p c =>
    cases p with
    | none => simp [handle] at h
    | some n =>
      cases hd : dly.delay_ms (n * 1000) with
      | error e' => simp [handle, hd] at h
      | ok u => simp [handle, hd] at h
  | swap v ck c =>
    cases hu : dev.update v ck with
    | error e' => simp [handle, hu] at h
    | ok u => simp [handle, hu] at h

theorem checkLoop_no_service {D S : Type} (dev : Device D) (dly : Delay)
    (responses : List (Except S Command)) :
    ∀ (s : UpdaterState) (e : S),
      (checkLoop dev dly s responses).result
        ≠ some (Except.error (Error.Service e)) := by
  induction responses with
  | nil => intro s e h; simp [checkLoop] at h
  | cons resp rest ih =>
    intro s e h
    cases resp with
    | error se =>
      simp only [checkLoop] at h
      exact ih s e h
    | ok cmd =>
      cases hh : (handle dev dly s cmd : StepOut D S) with
      | done evs res =>
        simp [checkLoop, hh] at h
        subst h
        exact handle_no_service dev dly s cmd evs e hh
      | next s' evs =>
        simp only [checkLoop, hh] at h
        exact ih s' e h

theorem check_no_service {D S : Type} (dev : Device D) (dly : Delay)
    (responses : List (Except S Command)) (e : S) :
    (check dev dly responses).result ≠ some (Except.error (Error.Service e)) := by
  unfold check
  cases hst : dev.status with
  | error e' => simp
  | ok initial =>
    cases hcv : fromSlice32 initial.current_version with
    | none => simp [hcv]
    | some cv =>
      cases hnv : initial.next_version with
      | none =>
        simpa [hcv, hnv] using
          checkLoop_no_service dev dly responses ⟨cv, initial.next_offset, none⟩ e
      | some nv =>
        cases hnv2 : fromSlice32 nv with
        | none => simp [hcv, hnv, hnv2]
        | some nv' =>
          simpa [hcv, hnv, hnv2] using
            checkLoop_no_service dev dly responses
              ⟨cv, initial.next_offset, some nv'⟩ e

/-- C4: `run` never returns the service-failure error variant: a failed
service request is caught and the loop re-enters with the same status
report, with no retry limit.  In particular, when the first request fails
and the second (carrying an identical report) returns sync, `run` returns
`Synced` with no error and the service was invoked exactly twice with
identical report content. -/
theorem C4_service_retry {D S : Type} (dev : Device D) (dly : Delay) :
    (∀ (responses : List (Except S Command)) (e : S),
      (run dev dly responses).result ≠ some (Except.error (Error.Service e))) ∧
    (∀ (init : InitialStatus) (se : S) (v : Option (List Nat)) (p : Option Nat)
        (c : Nat),
      dev.status = Except.ok init → initOk init → dev.synced = Except.ok () →
      (run dev dly [Except.error se, Except.ok (Command.sync v p c)]).result
          = some (Except.ok DeviceStatus.Synced) ∧
      (run dev dly [Except.error se, Except.ok (Command.sync v p c)]).reports
          = [buildStatus dev.MTU (mkInit init), buildStatus dev.MTU (mkInit init)]) := by
  constructor
  · intro responses e h
    simp only [run] at h
    obtain ⟨r, hr, hmap⟩ := Option.map_eq_some'.mp h
    cases r with
    | error err =>
      simp [Except.map] at hmap
      subst hmap
      exact check_no_service dev dly responses e hr
    | ok b => simp [Except.map] at hmap
  · intro init se v p c hst hok hsy
    constructor <;>
      simp [run, check_eq dev dly _ init hst hok, checkLoop, handle, hsy,
        Except.map]

theorem C4_service_retry_witness :
    ((run okDevice okDelay
        ([Except.ok (Command.wait none 0)] : List (Except Unit Command))).result
        ≠ some (Except.error (Error.Service ()))) ∧
    ((run okDevice okDelay
        ([Except.error (), Except.ok (Command.sync none none 0)] :
          List (Except Unit Command))).result
        = some (Except.ok DeviceStatus.Synced) ∧
    (run okDevice okDelay
        ([Except.error (), Except.ok (Command.sync none none 0)] :
          List (Except Unit Command))).reports
        = [buildStatus okDevice.MTU (mkInit ⟨[49], 0, none⟩),
           buildStatus okDevice.MTU (mkInit ⟨[49], 0, none⟩)]) :=
  ⟨(@C4_service_retry Unit Unit okDevice okDelay).1 [Except.ok (Command.wait none 0)] (),
   (@C4_service_retry Unit Unit okDevice okDelay).2 ⟨[49], 0, none⟩ () none none 0 rfl
     ⟨by decide, fun nv h => Option.noConfusion h⟩ rfl⟩

/-- C8: a write command's offset is never compared to the session's
`next_offset`: the device's write operation is invoked with the command's
offset as given, and `next_offset` is advanced by the payload length even
when the command's offset differs from `next_offset` (the universal part
quantifies over any state, with no relation between `o` and
`s.next_offset`).  The final conjunct exhibits a concrete divergence:
from `next_offset = 10`, a write at offset 4 of 2 bytes leaves
`next_offset = 12`, not the position 6 one past the bytes written. -/
theorem C8_no_offset_check {D S : Type} (dev : Device D) (dly : Delay)
    (s : UpdaterState) (v : List Nat) (o : Nat) (d : List Nat) (c : Nat)
    (ho : o ≠ 0) (hw : dev.write o d = Except.ok ())
    (hv : v.length ≤ 32) :
    ((handle dev dly s (Command.write v o d c) : StepOut D S)
        = StepOut.next
            ⟨s.current_version, (s.next_offset + d.length) % u32lim, some v⟩
            [Event.write o d]) ∧
    ((handle okDevice okDelay ⟨[49], 10, some [50]⟩
        (Command.write [50] 4 [7, 7] 0) : StepOut Unit Unit)
        = StepOut.next ⟨[49], 12, some [50]⟩ [Event.write 4 [7, 7]]) ∧
    (12 : Nat) ≠ 4 + 2 := by
  refine ⟨?_, ?_, by decide⟩
  · simp [handle, ho, hw, fromSlice32, hv]
  · simp [handle, okDevice, okDelay, fromSlice32, u32lim]

theorem C8_no_offset_check_witness :
    ((handle okDevice okDelay ⟨[49], 0, none⟩
        (Command.write [50] 7 [1, 2, 3] 0) : StepOut Unit Unit)
        = StepOut.next ⟨[49], 3, some [50]⟩ [Event.write 7 [1, 2, 3]]) ∧
    ((handle okDevice okDelay ⟨[49], 10, some [50]⟩
        (Command.write [50] 4 [7, 7] 0) : StepOut Unit Unit)
        = StepOut.next ⟨[49], 12, some [50]⟩ [Event.write 4 [7, 7]]) ∧
    (12 : Nat) ≠ 4 + 2 :=
  C8_no_offset_check okDevice okDelay ⟨[49], 0, none⟩ [50] 7 [1, 2, 3] 0
    (by decide) rfl (by decide)

/-- C9: an offset-0 write arriving while a download is in progress
(`next_version` set, `next_offset > 0`) re-invokes the device's start
operation, but `next_offset` is not reset to 0: it is advanced by adding
the payload length to its prior value, so (absent 32-bit overflow) it no
longer equals the number of bytes written for the new image. -/
theorem C9_restart_no_reset {D S : Type} (dev : Device D) (dly : Delay)
    (s : UpdaterState) (v : List Nat) (d : List Nat) (c : Nat) (w : List Nat)
    (_hnv : s.next_version = some w) (hpos : 0 < s.next_offset)
    (hs : dev.start v = Except.ok ()) (hw : dev.write 0 d = Except.ok ())
    (hv : v.length ≤ 32) :
    ((handle dev dly s (Command.write v 0 d c) : StepOut D S)
        = StepOut.next
            ⟨s.current_version, (s.next_offset + d.length) % u32lim, some v⟩
            [Event.start v, Event.write 0 d]) ∧
    (s.next_offset + d.length < u32lim →
      (s.next_offset + d.length) % u32lim ≠ d.length) := by
  constructor
  · simp [handle, hs, hw, fromSlice32, hv]
  · intro hlt
    rw [Nat.mod_eq_of_lt hlt]
    omega

theorem C9_restart_no_reset_witness :
    ((handle okDevice okDelay ⟨[49], 100, some [50]⟩
        (Command.write [51] 0 [1, 2, 3] 0) : StepOut Unit Unit)
        = StepOut.next ⟨[49], (100 + 3) % u32lim, some [51]⟩
            [Event.start [51], Event.write 0 [1, 2, 3]]) ∧
    (100 + 3 < u32lim → (100 + 3) % u32lim ≠ 3) :=
  C9_restart_no_reset okDevice okDelay ⟨[49], 100, some [50]⟩ [51] [1, 2, 3] 0
    [50] rfl (by decide) rfl rfl (by decide)

theorem checkLoop_cons_err {D S : Type} (dev : Device D) (dly : Delay)
    (s : UpdaterState) (e : S) (rest : List (Except S Command)) :
    checkLoop dev dly s (Except.error e :: rest)
      = ⟨buildStatus dev.MTU s :: (checkLoop dev dly s rest).reports,
         (checkLoop dev dly s rest).events,
         (checkLoop dev dly s rest).state,
         (checkLoop dev dly s rest).result⟩ := rfl

theorem checkLoop_cons_next {D S : Type} (dev : Device D) (dly : Delay)
    (s : UpdaterState) (cmd : Command) (s' : UpdaterState) (evs : List Event)
    (rest : List (Except S Command))
    (h : (handle dev dly s cmd : StepOut D S) = StepOut.next s' evs) :
    checkLoop dev dly s (Except.ok cmd :: rest)
      = ⟨buildStatus dev.MTU s :: (checkLoop dev dly s' rest).reports,
         evs ++ (checkLoop dev dly s' rest).events,
         (checkLoop dev dly s' rest).state,
         (checkLoop dev dly s' rest).result⟩ := by
  simp [checkLoop, h]

theorem checkLoop_cons_done {D S : Type} (dev : Device D) (dly : Delay)
    (s : UpdaterState) (cmd : Command) (evs : List Event)
    (res : Except (Error D S) Bool) (rest : List (Except S Command))
    (h : (handle dev dly s cmd : StepOut D S) = StepOut.done evs res) :
    checkLoop dev dly s (Except.ok cmd :: rest)
      = ⟨[buildStatus dev.MTU s], evs, s, some res⟩ := by
  simp [checkLoop, h]

theorem checkLoop_reports_cons {D S : Type} (dev : Device D) (dly : Delay)
    (s : UpdaterState) (resp : Except S Command)
    (rest : List (Except S Command)) :
    ∃ tl, (checkLoop dev dly s (resp :: rest)).reports
        = buildStatus dev.MTU s :: tl := by
  cases resp with
  | error e => exact ⟨(checkLoop dev dly s rest).reports, rfl⟩
  | ok cmd =>
    cases hh : (handle dev dly s cmd : StepOut D S) with
    | done evs res => exact ⟨[], by simp [checkLoop, hh]⟩
    | next s' evs =>
      exact ⟨(checkLoop dev dly s' rest).reports, by simp [checkLoop, hh]⟩

/-- C6: a wait command carrying poll interval `n` causes exactly one delay
request of `n * 1000` milliseconds before the same status report —
unchanged state, hence unchanged `current_version`, `next_offset` and
`next_version` — is resent; a wait with no interval continues immediately
with the state unchanged; a delay failure aborts the session with the
delay error. -/
theorem C6_wait_semantics {D S : Type} (dev : Device D) (dly : Delay)
    (s : UpdaterState) (n : Nat) (c : Nat) (resp : Except S Command)
    (rest : List (Except S Command)) :
    (dly.delay_ms (n * 1000) = Except.ok () →
      ((handle dev dly s (Command.wait (some n) c) : StepOut D S)
          = StepOut.next s [Event.delay_ms (n * 1000)]) ∧
      (checkLoop dev dly s
          (Except.ok (Command.wait (some n) c) :: resp :: rest)).events
          = Event.delay_ms (n * 1000)
              :: (checkLoop dev dly s (resp :: rest)).events ∧
      (checkLoop dev dly s
          (Except.ok (Command.wait (some n) c) :: resp :: rest)).reports.take 2
          = [buildStatus dev.MTU s, buildStatus dev.MTU s]) ∧
    ((handle dev dly s (Command.wait none c) : StepOut D S)
        = StepOut.next s []) ∧
    (dly.delay_ms (n * 1000) = Except.error () →
      (checkLoop dev dly s
          (Except.ok (Command.wait (some n) c) :: rest)).result
          = some (Except.error Error.Delay)) := by
  refine ⟨fun hok => ?_, by simp [handle], fun herr => ?_⟩
  · have h1 : (handle dev dly s (Command.wait (some n) c) : StepOut D S)
        = StepOut.next s [Event.delay_ms (n * 1000)] := by
      simp [handle, hok]
    refine ⟨h1, ?_, ?_⟩
    · simp [checkLoop, h1]
    · obtain ⟨tl, htl⟩ := checkLoop_reports_cons dev dly s resp rest
      rw [checkLoop_cons_next dev dly s (Command.wait (some n) c) s
        [Event.delay_ms (n * 1000)] (resp :: rest) h1]
      simp [htl]
  · simp [checkLoop, handle, herr]

theorem C6_wait_semantics_witness :
    (((handle okDevice okDelay ⟨[49], 5, some [50]⟩
        (Command.wait (some 60) 0) : StepOut Unit Unit)
        = StepOut.next ⟨[49], 5, some [50]⟩ [Event.delay_ms (60 * 1000)]) ∧
      (checkLoop okDevice okDelay ⟨[49], 5, some [50]⟩
          ([Except.ok (Command.wait (some 60) 0),
            Except.ok (Command.sync none none 0)] : List (Except Unit Command))).events
          = Event.delay_ms (60 * 1000)
              :: (checkLoop okDevice okDelay ⟨[49], 5, some [50]⟩
                  ([Except.ok (Command.sync none none 0)] :
                    List (Except Unit Command))).events ∧
      (checkLoop okDevice okDelay ⟨[49], 5, some [50]⟩
          ([Except.ok (Command.wait (some 60) 0),
            Except.ok (Command.sync none none 0)] : List (Except Unit Command))).reports.take 2
          = [buildStatus okDevice.MTU ⟨[49], 5, some [50]⟩,
             buildStatus okDevice.MTU ⟨[49], 5, some [50]⟩]) ∧
    (checkLoop okDevice failDelay ⟨[49], 5, some [50]⟩
        ([Except.ok (Command.wait (some 60) 0)] : List (Except Unit Command))).result
        = some (Except.error Error.Delay) :=
  ⟨(C6_wait_semantics okDevice okDelay ⟨[49], 5, some [50]⟩ 60 0
      (Except.ok (Command.sync none none 0)) []).1 rfl,
   (C6_wait_semantics okDevice failDelay ⟨[49], 5, some [50]⟩ 60 0
      (Except.ok (Command.sync none none 0)) []).2.2 rfl⟩

/-- C5: a version byte sequence longer than the 32-byte bound fails the
session with an explicit error and is never truncated: a device-reported
current version over the bound fails with `Encode`; a device-reported
in-progress version over the bound fails with `Encode`; a write command
carrying a version over the bound fails the session with `Decode`. -/
theorem C5_version_bound {D S : Type} (dev : Device D) (dly : Delay)
    (responses : List (Except S Command)) (init : InitialStatus)
    (nv : List Nat) (v : List Nat) (o : Nat) (d : List Nat) (c : Nat)
    (rest : List (Except S Command)) :
    (dev.status = Except.ok init → 32 < init.current_version.length →
      (run dev dly responses).result = some (Except.error Error.Encode)) ∧
    (dev.status = Except.ok init → init.current_version.length ≤ 32 →
      init.next_version = some nv → 32 < nv.length →
      (run dev dly responses).result = some (Except.error Error.Encode)) ∧
    (dev.status = Except.ok init → initOk init →
      (o = 0 → dev.start v = Except.ok ()) → dev.write o d = Except.ok () →
      32 < v.length →
      (run dev dly (Except.ok (Command.write v o d c) :: rest)).result
          = some (Except.error Error.Decode)) := by
  refine ⟨fun hst hlen => ?_, fun hst hcv hnv hlen => ?_,
    fun hst hok hsv hw hlen => ?_⟩
  · have h1 : fromSlice32 init.current_version = none := by
      simp only [fromSlice32, ite_eq_right_iff]
      omega
    simp [run, check, hst, h1, Except.map]
  · have h1 : fromSlice32 init.current_version = some init.current_version := by
      simp [fromSlice32, hcv]
    have h2 : fromSlice32 nv = none := by
      simp only [fromSlice32, ite_eq_right_iff]
      omega
    simp [run, check, hst, h1, hnv, h2, Except.map]
  · have hvnone : fromSlice32 v = none := by
      simp only [fromSlice32, ite_eq_right_iff]
      omega
    have hdone : (handle dev dly (mkInit init) (Command.write v o d c)
          : StepOut D S)
        = StepOut.done ((if o = 0 then [Event.start v] else [])
            ++ [Event.write o d]) (Except.error Error.Decode) := by
      by_cases ho : o = 0
      · subst ho
        simp [handle, hsv rfl, hw, hvnone]
      · simp [handle, ho, hw, hvnone]
    simp [run, check_eq dev dly _ init hst hok,
      checkLoop_cons_done dev dly (mkInit init) _ _ _ rest hdone, Except.map]

theorem C5_version_bound_witness :
    (run longCurDevice okDelay ([] : List (Except Unit Command))).result
        = some (Except.error Error.Encode) ∧
    (run longNextDevice okDelay ([] : List (Except Unit Command))).result
        = some (Except.error Error.Encode) ∧
    (run okDevice okDelay
        ([Except.ok (Command.write longVersion 0 [1] 0)] :
          List (Except Unit Command))).result
        = some (Except.error Error.Decode) :=
  ⟨(C5_version_bound longCurDevice okDelay [] ⟨longVersion, 0, none⟩
      [] [] 0 [] 0 []).1 rfl (by decide),
   (C5_version_bound longNextDevice okDelay [] ⟨[49], 64, some longVersion⟩
      longVersion [] 0 [] 0 []).2.1 rfl (by decide) rfl (by decide),
   (C5_version_bound okDevice okDelay [] ⟨[49], 0, none⟩
      [] longVersion 0 [1] 0 []).2.2 rfl
     ⟨by decide, fun nv h => Option.noConfusion h⟩ (fun _ => rfl) rfl
     (by decide)⟩

/-- C3 as stated is refuted: (1) a session starting at resume offset 5
accepts a zero-length write (the write event is performed), after which
`next_offset` is still 5 — no strict increase; (2) a session starting at
the maximal 32-bit resume offset accepts a 2-byte write, after which the
wrapping u32 addition leaves `next_offset = 1 < 4294967295` — it
decreased between two loop iterations. -/
theorem C3_counterexample :
    ((run dev5 okDelay
        ([Except.ok (Command.write [50] 5 [] 0),
          Except.ok (Command.swap [50] [9] 0)] : List (Except Unit Command))).events
        = [Event.write 5 [], Event.update [50] [9]]) ∧
    ((run dev5 okDelay
        ([Except.ok (Command.write [50] 5 [] 0),
          Except.ok (Command.swap [50] [9] 0)] : List (Except Unit Command))).state
        = some ⟨[49], 5, some [50]⟩) ∧
    ¬ (5 : Nat) < 5 ∧
    ((run devMaxOffset okDelay
        ([Except.ok (Command.write [50] 9 [7, 7] 0),
          Except.ok (Command.swap [50] [9] 0)] : List (Except Unit Command))).events
        = [Event.write 9 [7, 7], Event.update [50] [9]]) ∧
    ((run devMaxOffset okDelay
        ([Except.ok (Command.write [50] 9 [7, 7] 0),
          Except.ok (Command.swap [50] [9] 0)] : List (Except Unit Command))).state
        = some ⟨[49], 1, some [50]⟩) ∧
    (1 : Nat) < 4294967295 :=
  ⟨rfl, rfl, by decide, rfl, rfl, by decide⟩

/-- C3 amended: on every accepted (loop-continuing) write, `next_offset`
advances by exactly the payload length under the wrapping 32-bit addition
the code performs; when the payload is nonempty and the addition does not
overflow this is a strict increase, and it is never a decrease absent
overflow; the only other loop-continuing command, wait, leaves
`next_offset` unchanged, so `next_offset` never decreases between loop
iterations of a session in which no write overflows the 32-bit offset. -/
theorem C3_offset_monotonic {D S : Type} (dev : Device D) (dly : Delay)
    (s : UpdaterState) (cmd : Command) (s' : UpdaterState) (evs : List Event)
    (h : (handle dev dly s cmd : StepOut D S) = StepOut.next s' evs) :
    (∀ v o d c, cmd = Command.write v o d c →
      s'.next_offset = (s.next_offset + d.length) % u32lim ∧
      (s.next_offset + d.length < u32lim →
        s.next_offset ≤ s'.next_offset ∧
        (d ≠ [] → s.next_offset < s'.next_offset))) ∧
    (∀ p c, cmd = Command.wait p c → s'.next_offset = s.next_offset) := by
  constructor
  · rintro v o d c rfl
    have hoff : s'.next_offset = (s.next_offset + d.length) % u32lim := by
      by_cases ho : o = 0
      · subst ho
        cases hs : dev.start v with
        | error e => simp [handle, hs] at h
        | ok u =>
          cases hw : dev.write 0 d with
          | error e => simp [handle, hs, hw] at h
          | ok u' =>
            cases hv : fromSlice32 v with
            | none => simp [handle, hs, hw, hv] at h
            | some vv =>
              simp [handle, hs, hw, hv] at h
              rcases h with ⟨rfl, -⟩
              rfl
      · cases hw : dev.write o d with
        | error e => simp [handle, ho, hw] at h
        | ok u' =>
          cases hv : fromSlice32 v with
          | none => simp [handle, ho, hw, hv] at h
          | some vv =>
            simp [handle, ho, hw, hv] at h
            rcases h with ⟨rfl, -⟩
            rfl
    refine ⟨hoff, fun hlt => ?_⟩
    rw [hoff, Nat.mod_eq_of_lt hlt]
    constructor
    · omega
    · intro hd
      have : 0 < d.length := List.length_pos.mpr hd
      omega
  · rintro p c rfl
    cases p with
    | none =>
      simp [handle] at h
      rcases h with ⟨rfl, -⟩
      rfl
    | some n =>
      cases hd : dly.delay_ms (n * 1000) with
      | error e => simp [handle, hd] at h
      | ok u =>
        simp [handle, hd] at h
        rcases h with ⟨rfl, -⟩
        rfl

theorem C3_offset_monotonic_witness :
    ((handle okDevice okDelay ⟨[49], 5, some [50]⟩
        (Command.write [50] 9 [7, 7] 0) : StepOut Unit Unit)
        = StepOut.next ⟨[49], 7, some [50]⟩ [Event.write 9 [7, 7]]) ∧
    ((⟨[49], 7, some [50]⟩ : UpdaterState).next_offset
        = (5 + ([7, 7] : List Nat).length) % u32lim) ∧
    (5 : Nat) < (⟨[49], 7, some [50]⟩ : UpdaterState).next_offset := by
  have h : (handle okDevice okDelay ⟨[49], 5, some [50]⟩
      (Command.write [50] 9 [7, 7] 0) : StepOut Unit Unit)
      = StepOut.next ⟨[49], 7, some [50]⟩ [Event.write 9 [7, 7]] := rfl
  have hc := C3_offset_monotonic okDevice okDelay ⟨[49], 5, some [50]⟩
    (Command.write [50] 9 [7, 7] 0) ⟨[49], 7, some [50]⟩
    [Event.write 9 [7, 7]] h
  obtain ⟨h1, h2⟩ := hc.1 [50] 9 [7, 7] 0 rfl
  exact ⟨h, h1, (h2 (by decide)).2 (by decide)⟩

theorem handle_write_ok {D S : Type} (dev : Device D) (dly : Delay)
    (s : UpdaterState) (w : WriteCmd)
    (hs : ∀ ver, dev.start ver = Except.ok ())
    (hw : ∀ o d, dev.write o d = Except.ok ())
    (hv : w.version.length ≤ 32) :
    (handle dev dly s w.toCommand : StepOut D S)
        = StepOut.next (stepWrite s w) (writeEvs w) := by
  by_cases ho : w.offset = 0
  · simp [WriteCmd.toCommand, handle, ho, hs, hw, fromSlice32, hv, stepWrite,
      writeEvs]
  · simp [WriteCmd.toCommand, handle, ho, hw, fromSlice32, hv, stepWrite,
      writeEvs]

theorem checkLoop_writes {D S : Type} (dev : Device D) (dly : Delay)
    (hs : ∀ ver, dev.start ver = Except.ok ())
    (hw : ∀ o d, dev.write o d = Except.ok ()) :
    ∀ (ws : List WriteCmd) (s : UpdaterState)
      (rest : List (Except S Command)),
      (∀ w ∈ ws, w.version.length ≤ 32) →
      (checkLoop dev dly s
          (ws.map (fun w => Except.ok w.toCommand) ++ rest)).events
          = writesEvs ws
              ++ (checkLoop dev dly (afterWrites s ws) rest).events ∧
      (checkLoop dev dly s
          (ws.map (fun w => Except.ok w.toCommand) ++ rest)).result
          = (checkLoop dev dly (afterWrites s ws) rest).result ∧
      (checkLoop dev dly s
          (ws.map (fun w => Except.ok w.toCommand) ++ rest)).state
          = (checkLoop dev dly (afterWrites s ws) rest).state := by
  intro ws
  induction ws with
  | nil => intro s rest hv; simp [afterWrites, writesEvs]
  | cons w ws ih =>
    intro s rest hv
    have hmap : ((w :: ws).map (fun w => Except.ok w.toCommand) ++ rest
          : List (Except S Command))
        = Except.ok w.toCommand
            :: (ws.map (fun w => Except.ok w.toCommand) ++ rest) := by
      simp
    have hstep := @handle_write_ok D S dev dly s w hs hw
      (hv w (List.mem_cons_self w ws))
    obtain ⟨ih1, ih2, ih3⟩ := ih (stepWrite s w) rest
      (fun x hx => hv x (List.mem_cons_of_mem _ hx))
    rw [hmap, checkLoop_cons_next dev dly s w.toCommand (stepWrite s w)
      (writeEvs w) _ hstep]
    refine ⟨?_, ?_, ?_⟩
    · simp only [afterWrites]
      simp [ih1, writesEvs]
    · simp only [afterWrites]
      simpa using ih2
    · simp only [afterWrites]
      simpa using ih3

theorem afterWrites_next_offset :
    ∀ (ws : List WriteCmd) (s : UpdaterState), s.next_offset < u32lim →
      (afterWrites s ws).next_offset = (s.next_offset + sumLens ws) % u32lim := by
  intro ws
  induction ws with
  | nil =>
    intro s hlt
    simp [afterWrites, sumLens, Nat.mod_eq_of_lt hlt]
  | cons w ws ih =>
    intro s hlt
    have h2 : (stepWrite s w).next_offset < u32lim :=
      Nat.mod_lt _ (by decide)
    simp only [afterWrites]
    rw [ih (stepWrite s w) h2]
    simp only [stepWrite, sumLens, List.map_cons, List.sum_cons]
    rw [Nat.mod_add_mod, Nat.add_assoc]

theorem writesEvs_no_start :
    ∀ ws : List WriteCmd, (∀ w ∈ ws, w.offset ≠ 0) →
      (writesEvs ws).countP isStart = 0 := by
  intro ws
  induction ws with
  | nil => intro h; simp [writesEvs]
  | cons w ws ih =>
    intro h
    have h0 := h w (List.mem_cons_self w ws)
    simp [writesEvs, writeEvs, h0, List.countP_append, isStart,
      ih (fun x hx => h x (List.mem_cons_of_mem _ hx))]

/-- C1 as stated is refuted at a concrete session: the device initially
reports resume offset 7, the service answers with a single write (offset
0, 4-byte payload) and then a swap.  `run` returns `Updated` and start is
invoked exactly once, but the session's final `next_offset` is
`7 + 4 = 11`, not the sum 4 of the write payload lengths: the code never
resets `next_offset` when a download starts at offset 0. -/
theorem C1_counterexample :
    ((run dev7 okDelay
        (writeSwapSession Unit [⟨[50], 0, [1, 1, 1, 1], 0⟩] [50] [9] 0)).result
        = some (Except.ok DeviceStatus.Updated)) ∧
    ((run dev7 okDelay
        (writeSwapSession Unit [⟨[50], 0, [1, 1, 1, 1], 0⟩] [50] [9] 0)).events
        = [Event.start [50], Event.write 0 [1, 1, 1, 1],
           Event.update [50] [9]]) ∧
    ((run dev7 okDelay
        (writeSwapSession Unit [⟨[50], 0, [1, 1, 1, 1], 0⟩] [50] [9] 0)).state
        = some ⟨[49], 11, some [50]⟩) ∧
    sumLens [⟨[50], 0, [1, 1, 1, 1], 0⟩] = 4 ∧
    (11 : Nat) ≠ 4 :=
  ⟨rfl, rfl, rfl, rfl, by decide⟩

/-- C1 amended: for every session in which the device's operations
succeed, the device initially reports resume offset 0, and the service
answers with a sequence of write commands — the first at offset 0, the
rest at nonzero offsets — followed by a swap command: `run` returns the
`Updated` outcome, the device's start operation is invoked exactly once
(on the first write, whose offset is 0), and the session's final
`next_offset` equals the sum of all write payload lengths reduced by the
wrapping 32-bit addition (the plain sum whenever it fits in 32 bits). -/
theorem C1_write_swap_session {D S : Type} (dev : Device D) (dly : Delay)
    (init : InitialStatus) (w0 : WriteCmd) (ws : List WriteCmd)
    (sv sc : List Nat) (scid : Nat)
    (hst : dev.status = Except.ok init) (hok : initOk init)
    (hoff : init.next_offset = 0)
    (hs : ∀ ver, dev.start ver = Except.ok ())
    (hw : ∀ o d, dev.write o d = Except.ok ())
    (hu : ∀ ver ck, dev.update ver ck = Except.ok ())
    (hv : ∀ w ∈ w0 :: ws, w.version.length ≤ 32)
    (h0 : w0.offset = 0) (hrest : ∀ w ∈ ws, w.offset ≠ 0) :
    (run dev dly (writeSwapSession S (w0 :: ws) sv sc scid)).result
        = some (Except.ok DeviceStatus.Updated) ∧
    (run dev dly (writeSwapSession S (w0 :: ws) sv sc scid)).events
        = writesEvs (w0 :: ws) ++ [Event.update sv sc] ∧
    (run dev dly (writeSwapSession S (w0 :: ws) sv sc scid)).events.countP
        isStart = 1 ∧
    (run dev dly (writeSwapSession S (w0 :: ws) sv sc scid)).events.head?
        = some (Event.start w0.version) ∧
    (run dev dly (writeSwapSession S (w0 :: ws) sv sc scid)).state
        = some (afterWrites (mkInit init) (w0 :: ws)) ∧
    (afterWrites (mkInit init) (w0 :: ws)).next_offset
        = sumLens (w0 :: ws) % u32lim := by
  have hswap : (handle dev dly (afterWrites (mkInit init) (w0 :: ws))
        (Command.swap sv sc scid) : StepOut D S)
      = StepOut.done [Event.update sv sc] (Except.ok false) := by
    simp [handle, hu]
  have htail := checkLoop_cons_done dev dly
    (afterWrites (mkInit init) (w0 :: ws)) (Command.swap sv sc scid)
    [Event.update sv sc] (Except.ok false) [] hswap
  obtain ⟨he, hr, hstt⟩ := checkLoop_writes dev dly hs hw (w0 :: ws)
    (mkInit init) [Except.ok (Command.swap sv sc scid)] hv
  rw [htail] at he hr hstt
  simp only [List.map_cons, List.cons_append] at he hr hstt
  have hofflt : (mkInit init).next_offset < u32lim := by
    simp only [mkInit, hoff]
    decide
  have hsum : (afterWrites (mkInit init) (w0 :: ws)).next_offset
      = sumLens (w0 :: ws) % u32lim := by
    rw [afterWrites_next_offset (w0 :: ws) (mkInit init) hofflt]
    simp [mkInit, hoff]
  refine ⟨?_, ?_, ?_, ?_, ?_, hsum⟩
  · simp [run, check_eq dev dly _ init hst hok, writeSwapSession, hr,
      Except.map]
  · simp [run, check_eq dev dly _ init hst hok, writeSwapSession, he]
  · simp only [run, check_eq dev dly _ init hst hok, writeSwapSession,
      List.map_cons, List.cons_append, he]
    simp [List.countP_append, writesEvs, writeEvs, h0, isStart,
      writesEvs_no_start ws hrest]
  · simp [run, check_eq dev dly _ init hst hok, writeSwapSession, he,
      writesEvs, writeEvs, h0]
  · simp [run, check_eq dev dly _ init hst hok, writeSwapSession, hstt]

theorem C1_write_swap_session_witness :
    ((run okDevice okDelay
        (writeSwapSession Unit
          [⟨[50], 0, [1, 1], 0⟩, ⟨[50], 2, [1, 1, 1], 1⟩] [50] [9] 2)).result
        = some (Except.ok DeviceStatus.Updated)) ∧
    ((run okDevice okDelay
        (writeSwapSession Unit
          [⟨[50], 0, [1, 1], 0⟩, ⟨[50], 2, [1, 1, 1], 1⟩] [50] [9] 2)).events
        = writesEvs [⟨[50], 0, [1, 1], 0⟩, ⟨[50], 2, [1, 1, 1], 1⟩]
            ++ [Event.update [50] [9]]) ∧
    ((run okDevice okDelay
        (writeSwapSession Unit
          [⟨[50], 0, [1, 1], 0⟩, ⟨[50], 2, [1, 1, 1], 1⟩] [50] [9] 2)).events.countP
        isStart = 1) ∧
    ((run okDevice okDelay
        (writeSwapSession Unit
          [⟨[50], 0, [1, 1], 0⟩, ⟨[50], 2, [1, 1, 1], 1⟩] [50] [9] 2)).events.head?
        = some (Event.start [50])) ∧
    ((run okDevice okDelay
        (writeSwapSession Unit
          [⟨[50], 0, [1, 1], 0⟩, ⟨[50], 2, [1, 1, 1], 1⟩] [50] [9] 2)).state
        = some (afterWrites (mkInit ⟨[49], 0, none⟩)
            [⟨[50], 0, [1, 1], 0⟩, ⟨[50], 2, [1, 1, 1], 1⟩])) ∧
    ((afterWrites (mkInit ⟨[49], 0, none⟩)
        [⟨[50], 0, [1, 1], 0⟩, ⟨[50], 2, [1, 1, 1], 1⟩]).next_offset
        = sumLens [⟨[50], 0, [1, 1], 0⟩, ⟨[50], 2, [1, 1, 1], 1⟩] % u32lim) :=
  C1_write_swap_session okDevice okDelay ⟨[49], 0, none⟩
    ⟨[50], 0, [1, 1], 0⟩ [⟨[50], 2, [1, 1, 1], 1⟩] [50] [9] 2 rfl
    ⟨by decide, fun nv h => Option.noConfusion h⟩ rfl
    (fun ver => rfl) (fun o d => rfl) (fun ver ck => rfl)
    (by intro w hw; fin_cases hw <;> decide) rfl
    (by intro w hw; fin_cases hw; decide)

end Updater
